import Mathlib

/-!
Shallow embedding of `src/prediction_aggregator.py` (Prediction Market
Aggregator).  Python dict values coming from JSON are modelled by `JVal`;
Python `None` and JSON `null` are both `JVal.null`.  A Python function that
can raise is modelled as returning `Option` (`none` = an exception escapes).
Python floats are modelled by `ℚ` (the claims only involve values that are
exact in binary floating point).
-/

/-- Model of a scalar JSON value as seen by the Python code.  Arrays and
objects are destructured into typed record fields elsewhere, so they do not
appear here. -/
inductive JVal where
  | null
  | bool (b : Bool)
  | num (q : ℚ)
  | str (s : String)
deriving DecidableEq

/-- Python truthiness of a `JVal` (used by the `or` operator). -/
def jTruthy : JVal → Bool
  | JVal.null => false
  | JVal.bool b => b
  | JVal.num q => q != 0
  | JVal.str s => s != ""

/-- Python `a or b`: `b` when `a` is falsy, else `a`. -/
def jOr (a b : JVal) : JVal := if jTruthy a then a else b

/-- Python `str(v)` for the values representable as `JVal` (never raises).
The numeric case is a model: the claims never apply `str` to a number. -/
def jstr : JVal → String
  | JVal.null => "None"
  | JVal.bool true => "True"
  | JVal.bool false => "False"
  | JVal.num q => toString q
  | JVal.str s => s

/-- Decimal digit value of a character, `none` when it is not a digit. -/
def digVal (c : Char) : Option Nat :=
  if c.isDigit then some (c.toNat - 48) else none

/-- Parse a run of decimal digits as a `Nat` (the list must be all digits). -/
def digitsToNat (cs : List Char) : Option Nat :=
  cs.foldlM (fun acc c => (digVal c).map (fun d => acc * 10 + d)) 0

/-- Model of Python `float(s)` on a string: optional sign, then either
`digits`, `digits.digits`, `digits.` or `.digits`.  Returns `none` when the
string is not a numeric literal (Python raises `ValueError` there). -/
def parseFloatStr (s : String) : Option ℚ := do
  let cs := ((s.data.dropWhile Char.isWhitespace).reverse.dropWhile Char.isWhitespace).reverse
  let (sgn, cs) := match cs with
    | '-' :: rest => ((-1 : ℚ), rest)
    | '+' :: rest => ((1 : ℚ), rest)
    | _ => ((1 : ℚ), cs)
  let (intPart, cs) := cs.span Char.isDigit
  match cs with
  | [] =>
      if intPart = [] then none
      else do
        let n ← digitsToNat intPart
        pure (sgn * (n : ℚ))
  | '.' :: frac =>
      if intPart = [] ∧ frac = [] then none
      else if ¬ frac.all Char.isDigit then none
      else do
        let n ← digitsToNat intPart
        let f ← digitsToNat frac
        pure (sgn * ((n : ℚ) + (f : ℚ) / ((10 : ℚ) ^ frac.length)))
  | _ => none

/-- Model of Python `float(v)`: numbers pass through, booleans become 0/1,
strings are parsed, anything else raises (`none`). -/
def pyFloat : JVal → Option ℚ
  | JVal.num q => some q
  | JVal.bool b => some (if b then 1 else 0)
  | JVal.str s => parseFloatStr s
  | JVal.null => none

/-- A broken-down UTC datetime as produced by `datetime.fromtimestamp` /
`datetime.fromisoformat` (microseconds are dropped: the canonical output
format has second granularity and UTC offsets are whole minutes). -/
structure DT where
  year : Nat
  month : Nat
  day : Nat
  hour : Nat
  minute : Nat
  second : Nat
deriving DecidableEq

/-- Gregorian leap-year test. -/
def isLeapYear (y : Nat) : Bool :=
  (y % 4 = 0 && y % 100 != 0) || y % 400 = 0

/-- Month lengths for a (non-)leap year, January first. -/
def monthLengths (leap : Bool) : List Nat :=
  [31, if leap then 29 else 28, 31, 30, 31, 30, 31, 31, 30, 31, 30, 31]

/-- Walk the month lengths to turn a zero-based day-of-year into a
one-based (month, day) pair. -/
def monthDayGo (m d : Nat) : List Nat → Nat × Nat
  | [] => (m, d + 1)
  | len :: rest => if d < len then (m, d + 1) else monthDayGo (m + 1) (d - len) rest

/-- One-based (month, day) from a zero-based day-of-year. -/
def monthDayFromDoy (leap : Bool) (doy : Nat) : Nat × Nat :=
  monthDayGo 1 doy (monthLengths leap)

/-- Civil date from the number of days since 0001-01-01 (proleptic
Gregorian), by peeling 400/100/4/1-year cycles.  Models the conversion done
inside CPython `datetime`. -/
def ymdFromDays (n : Nat) : Nat × Nat × Nat :=
  let q400 := n / 146097
  let r400 := n % 146097
  let q100 := min (r400 / 36524) 3
  let r100 := r400 - q100 * 36524
  let q4 := r100 / 1461
  let r4 := r100 % 1461
  let q1 := min (r4 / 365) 3
  let doy := r4 - q1 * 365
  let y := 400 * q400 + 100 * q100 + 4 * q4 + q1 + 1
  let md := monthDayFromDoy (isLeapYear y) doy
  (y, md.1, md.2)

/-- Days from 0001-01-01 to 1970-01-01. -/
def epochDays : Nat := 719162

/-- UTC datetime from whole seconds since the Unix epoch.  Returns `none`
when the resulting year falls outside 1..9999, where CPython `datetime`
raises (`OverflowError` / `ValueError`). -/
def dtFromEpochSec (sec : Int) : Option DT :=
  let day := sec.fdiv 86400
  let sod := (sec - day * 86400).toNat
  let n := day + (epochDays : Int)
  if n < 0 then none
  else
    let ymd := ymdFromDays n.toNat
    if ymd.1 ≤ 9999 then
      some ⟨ymd.1, ymd.2.1, ymd.2.2, sod / 3600, sod % 3600 / 60, sod % 60⟩
    else none

/-- Model of `datetime.fromtimestamp(ms / 1000.0, tz=timezone.utc)`: the
millisecond value is converted to microseconds with rounding (CPython
rounds to the nearest microsecond; half-up here, which differs only at
exact half-microsecond inputs), then floored to whole seconds since only
seconds are displayed.  `(2000 * num + den).fdiv (2 * den)` is the floor of
`1000 * q + 1 / 2`. -/
def fromtimestampMs (q : ℚ) : Option DT :=
  let totalUs : Int := (2000 * q.num + (q.den : Int)).fdiv (2 * (q.den : Int))
  dtFromEpochSec (totalUs.fdiv 1000000)

/-- Days since 1970-01-01 of a civil date (proleptic Gregorian), the
standard era-based formula. -/
def daysFromCivil (y : Int) (m d : Nat) : Int :=
  let y' := if m ≤ 2 then y - 1 else y
  let era := y'.fdiv 400
  let yoe := (y' - era * 400).toNat
  let mp := if m > 2 then m - 3 else m + 9
  let doy := (153 * mp + 2) / 5 + d - 1
  let doe := yoe * 365 + yoe / 4 - yoe / 100 + doy
  era * 146097 + (doe : Int) - 719468

/-- Result of parsing an ISO-style timestamp string: the civil fields plus
the UTC offset in seconds (`none` for a naive timestamp). -/
structure ParsedISO where
  year : Nat
  month : Nat
  day : Nat
  hour : Nat
  minute : Nat
  second : Nat
  offsetSec : Option Int
deriving DecidableEq

/-- Consume one expected character. -/
def expectChar (c : Char) : List Char → Option (List Char)
  | x :: rest => if x = c then some rest else none
  | [] => none

/-- Read exactly two decimal digits. -/
def read2 : List Char → Option (Nat × List Char)
  | a :: b :: rest => do
      let da ← digVal a
      let db ← digVal b
      pure (da * 10 + db, rest)
  | _ => none

/-- Read exactly four decimal digits. -/
def read4 : List Char → Option (Nat × List Char)
  | a :: b :: c :: d :: rest => do
      let da ← digVal a
      let db ← digVal b
      let dc ← digVal c
      let dd ← digVal d
      pure (((da * 10 + db) * 10 + dc) * 10 + dd, rest)
  | _ => none

/-- Number of days in a month of a given year. -/
def daysInMonth (y m : Nat) : Nat :=
  ((monthLengths (isLeapYear y)).drop (m - 1)).headD 31

/-- Optional `:SS[.ffffff]` part of a time. -/
def parseOptSeconds (cs : List Char) : Option (Nat × List Char) :=
  match cs with
  | ':' :: rest => do
      let (s, rest) ← read2 rest
      if s ≥ 60 then none
      else
        match rest with
        | '.' :: rest2 =>
            let frac := rest2.span Char.isDigit
            if 1 ≤ frac.1.length ∧ frac.1.length ≤ 6 then some (s, frac.2) else none
        | _ => some (s, rest)
  | _ => some (0, cs)

/-- Optional `±HH:MM` UTC offset suffix. -/
def parseOptOffset (cs : List Char) : Option (Option Int × List Char) :=
  match cs with
  | '+' :: rest => do
      let (oh, rest) ← read2 rest
      let rest ← expectChar ':' rest
      let (om, rest) ← read2 rest
      if oh ≤ 23 ∧ om ≤ 59 then some (some ((oh * 3600 + om * 60 : Nat) : Int), rest) else none
  | '-' :: rest => do
      let (oh, rest) ← read2 rest
      let rest ← expectChar ':' rest
      let (om, rest) ← read2 rest
      if oh ≤ 23 ∧ om ≤ 59 then some (some (-((oh * 3600 + om * 60 : Nat) : Int)), rest) else none
  | _ => some (none, cs)

/-- Model of `datetime.fromisoformat` on the shapes the aggregator feeds it:
`YYYY-MM-DD`, optionally followed by `T` or a space and `HH:MM[:SS[.ffffff]]`,
optionally followed by a `±HH:MM` offset.  All fields are range-checked as
the `datetime` constructor does; `none` models a raised `ValueError`. -/
def pyFromIso (s : String) : Option ParsedISO := do
  let cs := s.data
  let (y, cs) ← read4 cs
  let cs ← expectChar '-' cs
  let (mo, cs) ← read2 cs
  let cs ← expectChar '-' cs
  let (d, cs) ← read2 cs
  if ¬ (1 ≤ y ∧ y ≤ 9999 ∧ 1 ≤ mo ∧ mo ≤ 12 ∧ 1 ≤ d ∧ d ≤ daysInMonth y mo) then none
  else
    match cs with
    | [] => some ⟨y, mo, d, 0, 0, 0, none⟩
    | c :: cs => do
        if ¬ (c = 'T' ∨ c = ' ') then none
        else do
          let (h, cs) ← read2 cs
          let cs ← expectChar ':' cs
          let (mi, cs) ← read2 cs
          if ¬ (h ≤ 23 ∧ mi ≤ 59) then none
          else do
            let (sec, cs) ← parseOptSeconds cs
            let (off, cs) ← parseOptOffset cs
            if cs = [] then some ⟨y, mo, d, h, mi, sec, off⟩ else none

/-- Seconds since the Unix epoch of a parsed timestamp, shifting by its UTC
offset.  A naive timestamp is treated as UTC, modelling a process whose
local timezone is UTC (the cron environments the script documents). -/
def epochSecOfParsed (p : ParsedISO) : Int :=
  daysFromCivil (p.year : Int) p.month p.day * 86400
    + ((p.hour * 3600 + p.minute * 60 + p.second : Nat) : Int)
    - p.offsetSec.getD 0

/-- Model of `datetime.fromisoformat(s).astimezone(timezone.utc)`;
`none` models a raised exception (parse failure or year overflow after the
offset shift). -/
def isoToUTC (s : String) : Option DT := do
  let p ← pyFromIso s
  dtFromEpochSec (epochSecOfParsed p)

/-- Last decimal digit of a number, as a character. -/
def digCh (n : Nat) : Char := Nat.digitChar (n % 10)

/-- Two-digit zero-padded decimal rendering. -/
def pad2 (n : Nat) : List Char := [digCh (n / 10), digCh n]

/-- Fuel-based decimal rendering, most significant digit first (general
fallback of `natDecChars` for numbers of five or more digits). -/
def natDecCore : Nat → Nat → List Char → List Char
  | 0, n, acc => Nat.digitChar (n % 10) :: acc
  | fuel + 1, n, acc =>
    if n < 10 then Nat.digitChar n :: acc
    else natDecCore fuel (n / 10) (Nat.digitChar (n % 10) :: acc)

/-- Unpadded decimal rendering of a number, most significant digit first:
how glibc `strftime` renders `%Y` (no zero padding, so years below 1000
print with fewer than four digits).  The explicit cases cover every year
`fromtimestamp` and `fromisoformat` can produce (1..9999). -/
def natDecChars (n : Nat) : List Char :=
  if n < 10 then [digCh n]
  else if n < 100 then [digCh (n / 10), digCh n]
  else if n < 1000 then [digCh (n / 100), digCh (n / 10), digCh n]
  else if n < 10000 then [digCh (n / 1000), digCh (n / 100), digCh (n / 10), digCh n]
  else natDecCore (n + 1) n []

/-- Model of `dt.strftime("%Y-%m-%dT%H:%M:%SZ")` on CPython with glibc
`strftime`: `%m %d %H %M %S` are zero-padded to two digits, but `%Y` is the
plain decimal year with no padding, so a year below 1000 yields a string
that does not match the canonical four-digit pattern. -/
def strftimeISO (dt : DT) : String :=
  ⟨natDecChars dt.year ++ '-' :: pad2 dt.month ++ '-' :: pad2 dt.day ++
    'T' :: pad2 dt.hour ++ ':' :: pad2 dt.minute ++ ':' :: pad2 dt.second ++ ['Z']⟩

/-- Recognizer for the canonical pattern
`^\d\x7b4\x7d-\d\x7b2\x7d-\d\x7b2\x7dT\d\x7b2\x7d:\d\x7b2\x7d:\d\x7b2\x7dZ$`. -/
def isCanonicalChars : List Char → Bool
  | [y1, y2, y3, y4, a, m1, m2, b, d1, d2, t, h1, h2, c, n1, n2, e, s1, s2, z] =>
      ([y1, y2, y3, y4, m1, m2, d1, d2, h1, h2, n1, n2, s1, s2].all Char.isDigit)
        && (a == '-') && (b == '-') && (t == 'T') && (c == ':') && (e == ':') && (z == 'Z')
  | _ => false

/-- String form of the canonical-pattern recognizer. -/
def isCanonicalTs (s : String) : Bool := isCanonicalChars s.data

/-- Model of `s.replace(pat, rep)` for a one-character pattern (the source
only ever replaces the single character `Z`): every occurrence is
replaced. -/
def pyReplace (s : String) (c : Char) (rep : String) : String :=
  ⟨s.data.foldr (fun x acc => if x = c then rep.data ++ acc else x :: acc) []⟩

/-- Model of `_to_iso` (src/prediction_aggregator.py:159-183): `None` and
the empty string give `None`; a string is parsed as ISO (after replacing
`Z` by `+00:00`), converted to UTC and formatted; anything else goes down
the numeric path; every exception of either path is caught and gives
`None`. -/
def _to_iso (v : JVal) : Option String :=
  if v = JVal.null ∨ v = JVal.str "" then none
  else
    match v with
    | JVal.str s =>
        match isoToUTC (pyReplace s 'Z' "+00:00") with
        | some dt => some (strftimeISO dt)
        | none => none
    | JVal.num q =>
        match fromtimestampMs q with
        | some dt => some (strftimeISO dt)
        | none => none
    | JVal.bool b =>
        match fromtimestampMs (if b then 1 else 0) with
        | some dt => some (strftimeISO dt)
        | none => none
    | JVal.null => none

/-- The `Market` dataclass (src/prediction_aggregator.py:30-42).  Fields the
Python code assigns without conversion keep type `JVal` (the dataclass does
not check types at runtime); fields always produced by `float(...)` or left
`None` are `Option ℚ`, and the timestamp fields come from `_to_iso`. -/
structure Market where
  source : String
  id : JVal
  question : JVal
  url : String
  outcome_type : String
  probability : JVal
  implied_odds : JVal
  volume_24h : Option ℚ
  liquidity : Option ℚ
  created_at : Option String
  close_time : Option String
deriving DecidableEq

/-- One record of the Manifold listing response, as consumed by
`fetch_manifold` (src/prediction_aggregator.py:65-86).  `none` is an absent
key; `some JVal.null` is a key present with `null`. -/
structure RawManifoldRec where
  id : Option JVal := none
  question : Option JVal := none
  creatorUsername : Option JVal := none
  slug : Option JVal := none
  outcomeType : Option JVal := none
  probability : Option JVal := none
  volume24Hours : Option JVal := none
  elasticity : Option JVal := none
  createdTime : Option JVal := none
  closeTime : Option JVal := none
deriving DecidableEq

/-- Model of `s.lower()`, character by character. -/
def pyLower (s : String) : String := ⟨s.data.map Char.toLower⟩

/-- Conversion of one Manifold record into a `Market`, following the body of
the `for m in data` loop of `fetch_manifold` literally; `none` models an
exception escaping the loop (there is no per-record handler in the
source). -/
def convertManifold (r : RawManifoldRec) : Option Market := do
  let prob := if r.outcomeType.getD JVal.null = JVal.str "BINARY"
              then r.probability.getD JVal.null else JVal.null
  let otRaw := jOr (r.outcomeType.getD JVal.null) (JVal.str "")
  let outcome_type ← match otRaw with
    | JVal.str s => some (pyLower s)
    | _ => none
  let v24 := r.volume24Hours.getD JVal.null
  let volume_24h ← if v24 = JVal.null then some none else (pyFloat v24).map some
  let el := r.elasticity.getD JVal.null
  let liquidity ← if el = JVal.null then some none else (pyFloat el).map some
  some
    { source := "manifold"
      id := r.id.getD (JVal.str "")
      question := r.question.getD (JVal.str "")
      url := "https://manifold.markets/" ++ jstr (r.creatorUsername.getD (JVal.str ""))
               ++ "/" ++ jstr (r.slug.getD (r.id.getD (JVal.str "")))
      outcome_type := outcome_type
      probability := prob
      implied_odds := prob
      volume_24h := volume_24h
      liquidity := liquidity
      created_at := _to_iso (r.createdTime.getD JVal.null)
      close_time := _to_iso (r.closeTime.getD JVal.null) }

/-- Map a conversion over a batch; the first raised exception (`none`)
aborts the whole call, exactly like the unguarded Python loop. -/
def mapOrFail (f : α → Option β) : List α → Option (List β)
  | [] => some []
  | a :: l =>
    match f a with
    | none => none
    | some b =>
      match mapOrFail f l with
      | none => none
      | some bs => some (b :: bs)

/-- Record-mapping part of `fetch_manifold`, after the HTTP response has
been fetched and parsed into a list of records. -/
def fetch_manifold (data : List RawManifoldRec) : Option (List Market) :=
  mapOrFail convertManifold data

/-- One market object inside a Polymarket event (src/prediction_aggregator.py:125-135). -/
structure RawPMMarket where
  id : Option JVal := none
  volume : Option JVal := none
  prices : Option (List JVal) := none
  liquidity : Option JVal := none
deriving DecidableEq

/-- One event of the Polymarket events response (src/prediction_aggregator.py:117-151). -/
structure RawPMEvent where
  title : Option JVal := none
  question : Option JVal := none
  slug : Option JVal := none
  id : Option JVal := none
  markets : Option (List RawPMMarket) := none
  createdAt : Option JVal := none
  created_at : Option JVal := none
  endDate : Option JVal := none
  end_date : Option JVal := none
deriving DecidableEq

/-- `float(m.get("volume", 0) or 0.0)` for one Polymarket market. -/
def pmVol (m : RawPMMarket) : Option ℚ :=
  pyFloat (jOr (m.volume.getD (JVal.num 0)) (JVal.num 0))

/-- The best-market selection loop of `fetch_polymarket`
(src/prediction_aggregator.py:122-129): running best market and best
volume, strict `>` so the first maximum is kept; `none` models `float`
raising on a malformed volume. -/
def bestGo (acc : Option RawPMMarket × ℚ) : List RawPMMarket → Option (Option RawPMMarket × ℚ)
  | [] => some acc
  | m :: rest => do
    let vol ← pmVol m
    bestGo (if acc.2 < vol then (some m, vol) else acc) rest

/-- Construction of the single `Market` emitted for an event once its best
market `bm` has been selected (the tail of the `for e in events` loop body
after the `continue` test); `question` and the timestamps are pure reads
of the event, so computing them here preserves the Python evaluation
semantics. -/
def pmBuildMarket (e : RawPMEvent) (base_url : String) (bm : RawPMMarket) :
    Option Market := do
  let question := jOr (jOr (e.title.getD JVal.null) (e.question.getD JVal.null)) (JVal.str "")
  let prices := bm.prices.getD []
  let prob_yes ← match prices with
    | [] => some JVal.null
    | p :: _ => (pyFloat p).map JVal.num
  let vraw := bm.volume.getD JVal.null
  let volume_24h ← if vraw = JVal.null then some none else (pyFloat vraw).map some
  let lraw := bm.liquidity.getD JVal.null
  let liquidity ← if lraw = JVal.null then some none else (pyFloat lraw).map some
  some
    { source := "polymarket"
      id := JVal.str (jstr (bm.id.getD JVal.null))
      question := question
      url := base_url
      outcome_type := if prices.length = 2 then "binary" else "multi"
      probability := prob_yes
      implied_odds := prob_yes
      volume_24h := volume_24h
      liquidity := liquidity
      created_at := _to_iso (jOr (e.createdAt.getD JVal.null) (e.created_at.getD JVal.null))
      close_time := _to_iso (jOr (e.endDate.getD JVal.null) (e.end_date.getD JVal.null)) }

/-- Conversion of one Polymarket event, following the body of the
`for e in events` loop of `fetch_polymarket` literally: `some []` is a
skipped event (`continue`), `some [mkt]` an emitted market, `none` an
exception escaping the loop. -/
def convertPMEvent (e : RawPMEvent) : Option (List Market) := do
  let urlSlug := jOr (jOr (e.slug.getD JVal.null) (e.id.getD JVal.null)) (JVal.str "")
  let base_url ← match urlSlug with
    | JVal.str s => some ("https://polymarket.com/event/" ++ s)
    | _ => none
  let best ← bestGo (none, -1) (e.markets.getD [])
  match best.1 with
  | none => some []
  | some bm => (pmBuildMarket e base_url bm).map (fun m => [m])

/-- Event-mapping part of `fetch_polymarket`, after the HTTP response has
been parsed and the bare-list / `events`-object shapes resolved into the
list of events. -/
def fetch_polymarket (events : List RawPMEvent) : Option (List Market) :=
  (mapOrFail convertPMEvent events).map List.flatten

/-- Outcome of the two network fetches during one aggregation run:
`Except.ok` is the list an adapter returns, `Except.error` carries
`str(exc)` of the exception the adapter raised (network failure, bad
status, or a mapping error as modelled by `fetch_manifold` /
`fetch_polymarket` returning `none`). -/
structure AggEnv where
  manifold : Except String (List Market)
  polymarket : Except String (List Market)

/-- Accumulated observable state of the source loop of `aggregate_markets`:
the concatenated markets, the lines written to stderr, and the sources for
which a network fetch was actually performed. -/
structure FetchOut where
  markets : List Market
  errors : List String
  fetched : List String
deriving DecidableEq

/-- The stderr line `f"[prediction_aggregator] source \x7bsrc\x7d failed: \x7bexc\x7d\n"`. -/
def errLine (src msg : String) : String :=
  "[prediction_aggregator] source " ++ src ++ " failed: " ++ msg ++ "\n"

/-- One iteration of the source loop (src/prediction_aggregator.py:200-210):
a known source performs its fetch (whose failure is caught and logged); an
unknown source raises `ValueError`, which the same handler catches and
logs, and performs no fetch. -/
def fetchOne (env : AggEnv) (src : String) : FetchOut :=
  if src = "manifold" then
    match env.manifold with
    | Except.ok ms => ⟨ms, [], ["manifold"]⟩
    | Except.error e => ⟨[], [errLine "manifold" e], ["manifold"]⟩
  else if src = "polymarket" then
    match env.polymarket with
    | Except.ok ms => ⟨ms, [], ["polymarket"]⟩
    | Except.error e => ⟨[], [errLine "polymarket" e], ["polymarket"]⟩
  else
    ⟨[], [errLine src ("Unknown source: " ++ src)], []⟩

/-- The whole source loop, in request order. -/
def loopAgg (env : AggEnv) : List String → FetchOut
  | [] => ⟨[], [], []⟩
  | s :: rest =>
    let a := fetchOne env s
    let b := loopAgg env rest
    ⟨a.markets ++ b.markets, a.errors ++ b.errors, a.fetched ++ b.fetched⟩

/-- Sort key: `m.volume_24h or 0.0`. -/
def volKey (m : Market) : ℚ := m.volume_24h.getD 0

/-- Filter key: `m.liquidity or 0.0`. -/
def liqKey (m : Market) : ℚ := m.liquidity.getD 0

/-- The descending-volume order used by
`all_markets.sort(key=..., reverse=True)`. -/
def marketDesc (a b : Market) : Prop := volKey b ≤ volKey a

instance : DecidableRel marketDesc := fun a b =>
  inferInstanceAs (Decidable (volKey b ≤ volKey a))

instance : IsTotal Market marketDesc :=
  ⟨fun a b => (le_total (volKey b) (volKey a)).imp id id⟩

instance : IsTrans Market marketDesc :=
  ⟨fun _ _ _ hab hbc => le_trans hbc hab⟩

/-- Model of `list.sort(key=lambda m: m.volume_24h or 0.0, reverse=True)`:
Python Timsort is a stable sort, and a stable sort of a list with respect
to a fixed total preorder is unique, so insertion sort computes the same
list. -/
def sortMarkets (l : List Market) : List Market := List.insertionSort marketDesc l

/-- Python `lst[:n]` for an `int` n: nonnegative n keeps the first n
elements; negative n drops the last `|n|` elements (clamped at zero). -/
def pySliceTo (n : Int) (l : List α) : List α :=
  if 0 ≤ n then l.take n.toNat else l.take (l.length - n.natAbs)

/-- Model of `aggregate_markets` (src/prediction_aggregator.py:186-224):
loop over the requested sources (every per-source exception caught and
logged), optional liquidity filter, stable sort by descending volume,
optional truncation.  The function never raises. -/
def aggregate_markets (env : AggEnv) (sources : List String)
    (min_liquidity : Option ℚ) (top_n : Option Int) : FetchOut :=
  let l := loopAgg env sources
  let filtered := match min_liquidity with
    | some t => l.markets.filter (fun m => decide (t ≤ liqKey m))
    | none => l.markets
  let sorted := sortMarkets filtered
  let final := match top_n with
    | some n => pySliceTo n sorted
    | none => sorted
  ⟨final, l.errors, l.fetched⟩

/-- Effects of the output step of `main` (src/prediction_aggregator.py:286-295)
for a file destination, in program order: `json.dumps` runs first, then the
parent directories are created, then `Path.write_text` opens the
destination with truncation and writes the text into it directly. -/
inductive EmitEffect where
  | serialize
  | mkdirParents (path : String)
  | openTrunc (path : String)
  | writeAll (path : String) (text : String)
deriving DecidableEq

/-- The effect trace of the file branch of `main`; there is no temporary
file and no rename. -/
def emitFileEffects (path text : String) : List EmitEffect :=
  [EmitEffect.serialize, EmitEffect.mkdirParents path,
   EmitEffect.openTrunc path, EmitEffect.writeAll path text]

/-- Resulting content of the destination file after `Path.write_text`,
which truncates and writes in place.  `budget = none` is a successful
write; `budget = some k` models an environmental write failure (disk full,
kill) after `k` characters have been delivered, as a plain `open`/`write`
with no temporary-plus-rename allows.  The prior content of the file is
destroyed either way. -/
def writeTextResult (text : String) (budget : Option Nat)
    (_priorContent : Option String) : Option String :=
  match budget with
  | none => some text
  | some k => some ⟨text.data.take k⟩

/-- A test-fixture market: only the fields the aggregator inspects vary. -/
def mkTestMarket (src id : String) (vol liq : Option ℚ) : Market :=
  { source := src
    id := JVal.str id
    question := JVal.str ""
    url := ""
    outcome_type := "binary"
    probability := JVal.null
    implied_odds := JVal.null
    volume_24h := vol
    liquidity := liq
    created_at := none
    close_time := none }

/-- A test-fixture Polymarket market with just an id and a numeric volume. -/
def pmM (id : String) (vol : ℚ) : RawPMMarket :=
  { id := some (JVal.str id), volume := some (JVal.num vol) }

theorem digitChar_isDigit_of_lt : ∀ k < 10, (Nat.digitChar k).isDigit = true := by decide

theorem digCh_isDigit (n : Nat) : (digCh n).isDigit = true :=
  digitChar_isDigit_of_lt (n % 10) (Nat.mod_lt _ (by decide))

theorem strftimeISO_canonical_of_year (dt : DT) (h1 : 1000 ≤ dt.year)
    (h2 : dt.year ≤ 9999) : isCanonicalTs (strftimeISO dt) = true := by
  show isCanonicalChars _ = true
  have hy : natDecChars dt.year =
      [digCh (dt.year / 1000), digCh (dt.year / 100), digCh (dt.year / 10), digCh dt.year] := by
    unfold natDecChars
    rw [if_neg (by omega), if_neg (by omega), if_neg (by omega), if_pos (by omega)]
  simp [strftimeISO, hy, pad2, isCanonicalChars, digCh_isDigit]

theorem dtFromEpochSec_year_le (sec : Int) (dt : DT)
    (h : dtFromEpochSec sec = some dt) : dt.year ≤ 9999 := by
  unfold dtFromEpochSec at h
  dsimp only [] at h
  split at h
  · simp at h
  · split at h
    next hy =>
      cases h
      exact hy
    next => simp at h

theorem fromtimestampMs_year_le (q : ℚ) (dt : DT)
    (h : fromtimestampMs q = some dt) : dt.year ≤ 9999 := by
  unfold fromtimestampMs at h
  exact dtFromEpochSec_year_le _ dt h

theorem isoToUTC_year_le (s : String) (dt : DT)
    (h : isoToUTC s = some dt) : dt.year ≤ 9999 := by
  unfold isoToUTC at h
  simp only [Option.bind_eq_bind, Option.bind_eq_some] at h
  obtain ⟨p, _, hp⟩ := h
  exact dtFromEpochSec_year_le _ dt hp

theorem to_iso_shape (v : JVal) :
    _to_iso v = none ∨ ∃ dt : DT, _to_iso v = some (strftimeISO dt) ∧ dt.year ≤ 9999 := by
  unfold _to_iso
  split
  · exact Or.inl rfl
  · cases v with
    | null => exact Or.inl rfl
    | bool b =>
        cases h : fromtimestampMs (if b then 1 else 0) with
        | none => exact Or.inl (by simp [h])
        | some dt => exact Or.inr ⟨dt, by simp [h], fromtimestampMs_year_le _ dt h⟩
    | num q =>
        cases h : fromtimestampMs q with
        | none => exact Or.inl (by simp [h])
        | some dt => exact Or.inr ⟨dt, by simp [h], fromtimestampMs_year_le _ dt h⟩
    | str s =>
        cases h : isoToUTC (pyReplace s 'Z' "+00:00") with
        | none => exact Or.inl (by simp [h])
        | some dt => exact Or.inr ⟨dt, by simp [h], isoToUTC_year_le _ dt h⟩

/-- C3 counterexample: the normalizer is total but does not always return a
canonical string: the valid epoch-millisecond input -62135596800000
(0001-01-01) and the parseable string `0500-01-01T00:00:00Z` both return
strings whose year is printed without zero padding (glibc `strftime`
behavior for `%Y` below year 1000), failing the canonical four-digit
pattern. -/
theorem to_iso_non_canonical_output_cex :
    _to_iso (JVal.num (-62135596800000)) = some "1-01-01T00:00:00Z"
    ∧ isCanonicalTs "1-01-01T00:00:00Z" = false
    ∧ _to_iso (JVal.str "0500-01-01T00:00:00Z") = some "500-01-01T00:00:00Z"
    ∧ isCanonicalTs "500-01-01T00:00:00Z" = false :=
  ⟨by decide, by decide, by decide, by decide⟩

/-- C3 amended: the timestamp normalizer `_to_iso` is total and never lets
an exception escape (each fallible sub-step is matched and mapped to
`None`): every input yields either `None` or a formatted timestamp string
whose year is at most 9999, and that string matches the canonical pattern
whenever the year is at least 1000 (below 1000 the year prints unpadded);
the null, empty-string, malformed-string and overflowing numeric inputs
all yield `None`. -/
theorem to_iso_total_never_raises :
    (∀ v : JVal, _to_iso v = none ∨ ∃ dt : DT, _to_iso v = some (strftimeISO dt)
        ∧ dt.year ≤ 9999 ∧ (1000 ≤ dt.year → isCanonicalTs (strftimeISO dt) = true))
    ∧ _to_iso JVal.null = none
    ∧ _to_iso (JVal.str "") = none
    ∧ _to_iso (JVal.str "not-a-date") = none
    ∧ _to_iso (JVal.str "2024-13-40T99:99:99Z") = none
    ∧ _to_iso (JVal.num 1000000000000000000000000) = none :=
  ⟨fun v => (to_iso_shape v).imp id
      (fun ⟨dt, h1, h2⟩ => ⟨dt, h1, h2, fun hy => strftimeISO_canonical_of_year dt hy h2⟩),
   by decide, by decide, by decide, by decide, by decide⟩

/-- Witness for the amended C3 theorem at a concrete input. -/
theorem to_iso_total_never_raises_witness :
    _to_iso (JVal.num 0) = none ∨ ∃ dt : DT, _to_iso (JVal.num 0) = some (strftimeISO dt)
      ∧ dt.year ≤ 9999 ∧ (1000 ≤ dt.year → isCanonicalTs (strftimeISO dt) = true) :=
  to_iso_total_never_raises.1 (JVal.num 0)

/-- C7 counterexample: -62135596800000 ms is a valid epoch-millisecond
input (its UTC conversion succeeds, no overflow: it is 0001-01-01), yet
the normalizer returns `1-01-01T00:00:00Z`, which does not match
`^\d\x7b4\x7d-\d\x7b2\x7d-\d\x7b2\x7dT\d\x7b2\x7d:\d\x7b2\x7d:\d\x7b2\x7dZ$`:
glibc `strftime` prints `%Y` unpadded below year 1000. -/
theorem to_iso_numeric_non_canonical_cex :
    (fromtimestampMs (-62135596800000)).isSome = true
    ∧ _to_iso (JVal.num (-62135596800000)) = some "1-01-01T00:00:00Z"
    ∧ isCanonicalTs "1-01-01T00:00:00Z" = false :=
  ⟨by decide, by decide, by decide⟩

/-- C7 amended: for a numeric input whose UTC conversion succeeds with a
year of at least 1000 (in particular every valid input from 1000-01-01
on), the result matches the canonical pattern
`^\d\x7b4\x7d-\d\x7b2\x7d-\d\x7b2\x7dT\d\x7b2\x7d:\d\x7b2\x7d:\d\x7b2\x7dZ$`;
when the conversion overflows the result is `None`; sample valid
epoch-millisecond inputs convert to the expected UTC strings, the last
representable millisecond still matches, and one past it yields `None`. -/
theorem to_iso_numeric_canonical_from_year_1000 :
    (∀ (q : ℚ) (dt : DT), fromtimestampMs q = some dt → 1000 ≤ dt.year →
        _to_iso (JVal.num q) = some (strftimeISO dt)
        ∧ isCanonicalTs (strftimeISO dt) = true)
    ∧ (∀ q : ℚ, fromtimestampMs q = none → _to_iso (JVal.num q) = none)
    ∧ _to_iso (JVal.num 0) = some "1970-01-01T00:00:00Z"
    ∧ _to_iso (JVal.num 1700000000000) = some "2023-11-14T22:13:20Z"
    ∧ _to_iso (JVal.num 253402300799999) = some "9999-12-31T23:59:59Z"
    ∧ _to_iso (JVal.num 253402300800000) = none := by
  refine ⟨?_, ?_, by decide, by decide, by decide, by decide⟩
  · intro q dt h hy
    exact ⟨by simp [_to_iso, h],
      strftimeISO_canonical_of_year dt hy (fromtimestampMs_year_le q dt h)⟩
  · intro q h
    simp [_to_iso, h]

/-- Witness for the amended C7 theorem at concrete inputs. -/
theorem to_iso_numeric_canonical_from_year_1000_witness :
    (_to_iso (JVal.num 0) = some (strftimeISO ⟨1970, 1, 1, 0, 0, 0⟩)
      ∧ isCanonicalTs (strftimeISO ⟨1970, 1, 1, 0, 0, 0⟩) = true)
    ∧ _to_iso (JVal.num 253402300800000) = none :=
  ⟨to_iso_numeric_canonical_from_year_1000.1 0 ⟨1970, 1, 1, 0, 0, 0⟩ (by decide) (by decide),
   to_iso_numeric_canonical_from_year_1000.2.1 253402300800000 (by decide)⟩

theorem filter_orderedInsert_pos {α : Type} (r : α → α → Prop) [DecidableRel r]
    (p : α → Bool) (a : α) (h : ∀ b, p b = true → r a b) (ha : p a = true) :
    ∀ l : List α, List.filter p (List.orderedInsert r a l) = a :: List.filter p l
  | [] => by simp [List.orderedInsert, ha]
  | b :: l => by
    by_cases hr : r a b
    · simp [List.orderedInsert, hr, ha]
    · have hb : p b = false := by
        cases hpb : p b with
        | false => rfl
        | true => exact absurd (h b hpb) hr
      simp [List.orderedInsert, hr, hb, filter_orderedInsert_pos r p a h ha l]

theorem filter_orderedInsert_neg {α : Type} (r : α → α → Prop) [DecidableRel r]
    (p : α → Bool) (a : α) (ha : p a = false) :
    ∀ l : List α, List.filter p (List.orderedInsert r a l) = List.filter p l
  | [] => by simp [List.orderedInsert, ha]
  | b :: l => by
    by_cases hr : r a b
    · simp [List.orderedInsert, hr, ha]
    · cases hb : p b with
      | false => simp [List.orderedInsert, hr, hb, filter_orderedInsert_neg r p a ha l]
      | true => simp [List.orderedInsert, hr, hb, filter_orderedInsert_neg r p a ha l]

theorem sortMarkets_filter_volClass (c : ℚ) :
    ∀ l : List Market,
      (sortMarkets l).filter (fun m => decide (volKey m = c)) =
        l.filter (fun m => decide (volKey m = c))
  | [] => rfl
  | a :: l => by
    show List.filter _ (List.orderedInsert marketDesc a (sortMarkets l)) = _
    by_cases ha : volKey a = c
    · rw [filter_orderedInsert_pos marketDesc _ a
        (fun b hb => by
          have hbc : volKey b = c := of_decide_eq_true hb
          show volKey b ≤ volKey a
          rw [hbc, ha])
        (by simp [ha])]
      rw [sortMarkets_filter_volClass c l]
      simp [ha]
    · rw [filter_orderedInsert_neg marketDesc _ a (by simp [ha])]
      rw [sortMarkets_filter_volClass c l]
      simp [ha]

/-- C4: the ranking is a stable sort by descending `volume_24h` with null
as 0.0: the sorted list is a permutation of its input, it is sorted for
the descending-volume preorder, markets of any fixed volume keep their
original concatenation order, and the spec example (Source 1 volumes
[10, 30], Source 2 volumes [30, 5], requested in that order) ranks as
30 (source 1), 30 (source 2), 10, 5. -/
theorem aggregate_ranking_stable_desc :
    (∀ l : List Market, (sortMarkets l).Perm l ∧ List.Sorted marketDesc (sortMarkets l))
    ∧ (∀ (l : List Market) (c : ℚ),
        (sortMarkets l).filter (fun m => decide (volKey m = c)) =
          l.filter (fun m => decide (volKey m = c)))
    ∧ (aggregate_markets
        ⟨Except.ok [mkTestMarket "manifold" "a" (some 10) none,
                    mkTestMarket "manifold" "b" (some 30) none],
         Except.ok [mkTestMarket "polymarket" "c" (some 30) none,
                    mkTestMarket "polymarket" "d" (some 5) none]⟩
        ["manifold", "polymarket"] none none).markets =
      [mkTestMarket "manifold" "b" (some 30) none,
       mkTestMarket "polymarket" "c" (some 30) none,
       mkTestMarket "manifold" "a" (some 10) none,
       mkTestMarket "polymarket" "d" (some 5) none] :=
  ⟨fun l => ⟨List.perm_insertionSort marketDesc l, List.sorted_insertionSort marketDesc l⟩,
   fun l c => sortMarkets_filter_volClass c l,
   by decide⟩

theorem loopAgg_append (env : AggEnv) :
    ∀ xs ys : List String,
      loopAgg env (xs ++ ys) =
        ⟨(loopAgg env xs).markets ++ (loopAgg env ys).markets,
         (loopAgg env xs).errors ++ (loopAgg env ys).errors,
         (loopAgg env xs).fetched ++ (loopAgg env ys).fetched⟩
  | [], ys => rfl
  | x :: xs, ys => by
    simp [loopAgg, loopAgg_append env xs ys, List.append_assoc]

theorem fetchOne_unknown (env : AggEnv) (s : String)
    (hm : s ≠ "manifold") (hp : s ≠ "polymarket") :
    fetchOne env s = ⟨[], [errLine s ("Unknown source: " ++ s)], []⟩ := by
  simp [fetchOne, hm, hp]

/-- C8: when one adapter raises a `SourceError` (here: the manifold fetch,
and symmetrically the polymarket fetch), the aggregator catches it, writes
exactly one stderr line naming the failed source, the failed source
contributes zero markets, and the final market list is a permutation of
(exactly) what the surviving source returned. -/
theorem aggregate_source_error_isolated (e : String) (ms : List Market) :
    ((aggregate_markets ⟨Except.error e, Except.ok ms⟩
        ["manifold", "polymarket"] none none).markets.Perm ms
      ∧ (aggregate_markets ⟨Except.error e, Except.ok ms⟩
          ["manifold", "polymarket"] none none).errors =
        ["[prediction_aggregator] source manifold failed: " ++ e ++ "\n"])
    ∧ ((aggregate_markets ⟨Except.ok ms, Except.error e⟩
        ["manifold", "polymarket"] none none).markets.Perm ms
      ∧ (aggregate_markets ⟨Except.ok ms, Except.error e⟩
          ["manifold", "polymarket"] none none).errors =
        ["[prediction_aggregator] source polymarket failed: " ++ e ++ "\n"]) := by
  refine ⟨⟨?_, ?_⟩, ⟨?_, ?_⟩⟩ <;>
    simp [aggregate_markets, loopAgg, fetchOne, sortMarkets, errLine,
      List.perm_insertionSort]

/-- C1 counterexample: requesting an unknown source does NOT raise a
`ConfigError`-like exception and does not prevent fetches: with sources
`["manifold", "wintermute"]` the call returns a normal result, the
manifold fetch is performed, manifold's market is returned, and the
unknown-source `ValueError` is swallowed into a stderr line. -/
theorem aggregate_unknown_source_cex :
    aggregate_markets ⟨Except.ok [mkTestMarket "manifold" "a" (some 10) none], Except.ok []⟩
        ["manifold", "wintermute"] none none =
      ⟨[mkTestMarket "manifold" "a" (some 10) none],
       ["[prediction_aggregator] source wintermute failed: Unknown source: wintermute\n"],
       ["manifold"]⟩
    ∧ (aggregate_markets ⟨Except.ok [mkTestMarket "manifold" "a" (some 10) none], Except.ok []⟩
        ["manifold", "wintermute"] none none).markets ≠ []
    ∧ "manifold" ∈ (aggregate_markets
        ⟨Except.ok [mkTestMarket "manifold" "a" (some 10) none], Except.ok []⟩
        ["manifold", "wintermute"] none none).fetched := by
  refine ⟨by decide, by decide, by decide⟩

/-- C1 amended: an unknown source name never aborts the aggregation call:
the `ValueError` raised for it is caught by the same per-source handler
that covers fetch failures, one stderr line `Unknown source: ...` is
emitted in its position, the unknown source contributes no markets and no
fetch, and the returned markets and performed fetches are exactly those of
the same call without the unknown name. -/
theorem aggregate_unknown_source_swallowed (env : AggEnv) (pre post : List String)
    (s : String) (hm : s ≠ "manifold") (hp : s ≠ "polymarket")
    (mi : Option ℚ) (tn : Option Int) :
    (aggregate_markets env (pre ++ s :: post) mi tn).markets =
      (aggregate_markets env (pre ++ post) mi tn).markets
    ∧ (aggregate_markets env (pre ++ s :: post) mi tn).fetched =
      (aggregate_markets env (pre ++ post) mi tn).fetched
    ∧ (aggregate_markets env (pre ++ s :: post) mi tn).errors =
      (loopAgg env pre).errors ++ errLine s ("Unknown source: " ++ s)
        :: (loopAgg env post).errors := by
  have hmk : loopAgg env (pre ++ s :: post) =
      ⟨(loopAgg env pre).markets ++ (loopAgg env post).markets,
       (loopAgg env pre).errors ++ errLine s ("Unknown source: " ++ s)
         :: (loopAgg env post).errors,
       (loopAgg env pre).fetched ++ (loopAgg env post).fetched⟩ := by
    rw [loopAgg_append env pre (s :: post)]
    show FetchOut.mk _ _ _ = _
    rw [show loopAgg env (s :: post) =
        ⟨(fetchOne env s).markets ++ (loopAgg env post).markets,
         (fetchOne env s).errors ++ (loopAgg env post).errors,
         (fetchOne env s).fetched ++ (loopAgg env post).fetched⟩ from rfl]
    rw [fetchOne_unknown env s hm hp]
    simp
  have hmk2 : loopAgg env (pre ++ post) =
      ⟨(loopAgg env pre).markets ++ (loopAgg env post).markets,
       (loopAgg env pre).errors ++ (loopAgg env post).errors,
       (loopAgg env pre).fetched ++ (loopAgg env post).fetched⟩ :=
    loopAgg_append env pre post
  refine ⟨?_, ?_, ?_⟩ <;> simp [aggregate_markets, hmk, hmk2]

/-- Witness for the amended C1 theorem at a concrete input. -/
theorem aggregate_unknown_source_swallowed_witness :
    (aggregate_markets ⟨Except.ok [], Except.ok []⟩ (["manifold"] ++ "bogus" :: []) none none).markets =
      (aggregate_markets ⟨Except.ok [], Except.ok []⟩ (["manifold"] ++ []) none none).markets
    ∧ (aggregate_markets ⟨Except.ok [], Except.ok []⟩ (["manifold"] ++ "bogus" :: []) none none).fetched =
      (aggregate_markets ⟨Except.ok [], Except.ok []⟩ (["manifold"] ++ []) none none).fetched
    ∧ (aggregate_markets ⟨Except.ok [], Except.ok []⟩ (["manifold"] ++ "bogus" :: []) none none).errors =
      (loopAgg ⟨Except.ok [], Except.ok []⟩ ["manifold"]).errors ++
        errLine "bogus" ("Unknown source: " ++ "bogus")
          :: (loopAgg ⟨Except.ok [], Except.ok []⟩ []).errors :=
  aggregate_unknown_source_swallowed ⟨Except.ok [], Except.ok []⟩ ["manifold"] [] "bogus"
    (by decide) (by decide) none none

/-- C5: with `min_liquidity` given (and no truncation), the aggregator
keeps exactly the markets whose `liquidity or 0.0` is at least the
threshold; on the spec example (liquidity values null, 10, 50, 100 and
threshold 50) exactly the 50 and 100 markets survive. -/
theorem aggregate_min_liquidity_filter :
    (∀ (env : AggEnv) (srcs : List String) (t : ℚ) (m : Market),
        m ∈ (aggregate_markets env srcs (some t) none).markets ↔
          m ∈ (loopAgg env srcs).markets ∧ t ≤ liqKey m)
    ∧ (aggregate_markets
        ⟨Except.ok [mkTestMarket "manifold" "a" none none,
                    mkTestMarket "manifold" "b" none (some 10),
                    mkTestMarket "manifold" "c" none (some 50),
                    mkTestMarket "manifold" "d" none (some 100)],
         Except.ok []⟩
        ["manifold"] (some 50) none).markets =
      [mkTestMarket "manifold" "c" none (some 50),
       mkTestMarket "manifold" "d" none (some 100)] := by
  constructor
  · intro env srcs t m
    show m ∈ sortMarkets (List.filter _ (loopAgg env srcs).markets) ↔ _
    rw [sortMarkets, List.mem_insertionSort, List.mem_filter, decide_eq_true_iff]
  · decide

/-- C10: a negative `top_n` is not a size cap: `lst[:top_n]` removes the
last `|top_n|` elements of the sorted, filtered list (all of them when
`|top_n|` is at least the length), keeping the rest in order. -/
theorem aggregate_negative_top_n (env : AggEnv) (srcs : List String)
    (mi : Option ℚ) (n : Int) (hn : n < 0) :
    (aggregate_markets env srcs mi (some n)).markets =
      (aggregate_markets env srcs mi none).markets.take
        ((aggregate_markets env srcs mi none).markets.length - n.natAbs)
    ∧ ∃ suffix,
        (aggregate_markets env srcs mi none).markets =
          (aggregate_markets env srcs mi (some n)).markets ++ suffix
        ∧ suffix.length = min n.natAbs (aggregate_markets env srcs mi none).markets.length := by
  have hns : ¬ (0 ≤ n) := not_le.mpr hn
  have h1 : (aggregate_markets env srcs mi (some n)).markets =
      (aggregate_markets env srcs mi none).markets.take
        ((aggregate_markets env srcs mi none).markets.length - n.natAbs) := by
    show pySliceTo n _ = _
    rw [pySliceTo, if_neg hns]
    rfl
  refine ⟨h1, ⟨(aggregate_markets env srcs mi none).markets.drop
      ((aggregate_markets env srcs mi none).markets.length - n.natAbs), ?_, ?_⟩⟩
  · rw [h1, List.take_append_drop]
  · rw [List.length_drop]
    omega

/-- Witness for the C10 theorem at a concrete input. -/
theorem aggregate_negative_top_n_witness :
    (aggregate_markets ⟨Except.ok [mkTestMarket "manifold" "a" (some 10) none,
                                   mkTestMarket "manifold" "b" (some 30) none],
        Except.ok []⟩ ["manifold"] none (some (-1))).markets =
      (aggregate_markets ⟨Except.ok [mkTestMarket "manifold" "a" (some 10) none,
                                     mkTestMarket "manifold" "b" (some 30) none],
        Except.ok []⟩ ["manifold"] none none).markets.take
        ((aggregate_markets ⟨Except.ok [mkTestMarket "manifold" "a" (some 10) none,
                                        mkTestMarket "manifold" "b" (some 30) none],
          Except.ok []⟩ ["manifold"] none none).markets.length - (-1 : Int).natAbs)
    ∧ ∃ suffix,
        (aggregate_markets ⟨Except.ok [mkTestMarket "manifold" "a" (some 10) none,
                                       mkTestMarket "manifold" "b" (some 30) none],
          Except.ok []⟩ ["manifold"] none none).markets =
          (aggregate_markets ⟨Except.ok [mkTestMarket "manifold" "a" (some 10) none,
                                         mkTestMarket "manifold" "b" (some 30) none],
            Except.ok []⟩ ["manifold"] none (some (-1))).markets ++ suffix
        ∧ suffix.length = min (-1 : Int).natAbs
            (aggregate_markets ⟨Except.ok [mkTestMarket "manifold" "a" (some 10) none,
                                           mkTestMarket "manifold" "b" (some 30) none],
              Except.ok []⟩ ["manifold"] none none).markets.length :=
  aggregate_negative_top_n _ _ _ _ (by decide)

/-- A manifold record whose `float`-ed and `.lower()`-ed fields cannot
raise: `volume24Hours` and `elasticity` are absent, null, or convertible by
`float`, and `outcomeType or ""` is a string. -/
def manifoldWellFormed (r : RawManifoldRec) : Bool :=
  (match jOr (r.outcomeType.getD JVal.null) (JVal.str "") with
   | JVal.str _ => true
   | _ => false)
  && ((r.volume24Hours.getD JVal.null == JVal.null)
      || (pyFloat (r.volume24Hours.getD JVal.null)).isSome)
  && ((r.elasticity.getD JVal.null == JVal.null)
      || (pyFloat (r.elasticity.getD JVal.null)).isSome)

theorem convertManifold_isSome_of_wf (r : RawManifoldRec)
    (h : manifoldWellFormed r = true) : (convertManifold r).isSome = true := by
  rw [manifoldWellFormed, Bool.and_eq_true, Bool.and_eq_true] at h
  obtain ⟨⟨hot, hv⟩, he⟩ := h
  unfold convertManifold
  cases hOT : jOr (r.outcomeType.getD JVal.null) (JVal.str "") with
  | null => rw [hOT] at hot; simp at hot
  | bool b => rw [hOT] at hot; simp at hot
  | num q => rw [hOT] at hot; simp at hot
  | str s =>
    have hv' : r.volume24Hours.getD JVal.null = JVal.null
        ∨ (pyFloat (r.volume24Hours.getD JVal.null)).isSome = true := by
      rcases Bool.or_eq_true_iff.mp hv with h1 | h1
      · exact Or.inl (eq_of_beq h1)
      · exact Or.inr h1
    have he' : r.elasticity.getD JVal.null = JVal.null
        ∨ (pyFloat (r.elasticity.getD JVal.null)).isSome = true := by
      rcases Bool.or_eq_true_iff.mp he with h1 | h1
      · exact Or.inl (eq_of_beq h1)
      · exact Or.inr h1
    rcases hv' with h1 | h1
    · rcases he' with h2 | h2
      · simp [h1, h2]
      · have hne2 : r.elasticity.getD JVal.null ≠ JVal.null := by
          intro hc; rw [hc] at h2; simp [pyFloat] at h2
        obtain ⟨w, hw⟩ := Option.isSome_iff_exists.mp h2
        simp [h1, hne2, hw]
    · have hne1 : r.volume24Hours.getD JVal.null ≠ JVal.null := by
        intro hc; rw [hc] at h1; simp [pyFloat] at h1
      obtain ⟨q, hq⟩ := Option.isSome_iff_exists.mp h1
      rcases he' with h2 | h2
      · simp [hne1, hq, h2]
      · have hne2 : r.elasticity.getD JVal.null ≠ JVal.null := by
          intro hc; rw [hc] at h2; simp [pyFloat] at h2
        obtain ⟨w, hw⟩ := Option.isSome_iff_exists.mp h2
        simp [hne1, hq, hne2, hw]

theorem mapOrFail_isSome_length {α β : Type} (f : α → Option β) :
    ∀ l : List α, (∀ a ∈ l, (f a).isSome = true) →
      ∃ bs, mapOrFail f l = some bs ∧ bs.length = l.length
  | [], _ => ⟨[], rfl, rfl⟩
  | a :: l, h => by
    obtain ⟨b, hb⟩ := Option.isSome_iff_exists.mp (h a (List.mem_cons_self a l))
    obtain ⟨bs, hbs, hlen⟩ :=
      mapOrFail_isSome_length f l (fun x hx => h x (List.mem_cons_of_mem a hx))
    exact ⟨b :: bs, by simp [mapOrFail, hb, hbs], by simp [hlen]⟩

theorem mapOrFail_none_of_mem {α β : Type} (f : α → Option β) :
    ∀ (l : List α) (a : α), a ∈ l → f a = none → mapOrFail f l = none
  | [], a, ha, _ => absurd ha (List.not_mem_nil a)
  | b :: l, a, ha, hfa => by
    rcases List.mem_cons.mp ha with rfl | ha'
    · simp [mapOrFail, hfa]
    · cases hfb : f b with
      | none => simp [mapOrFail, hfb]
      | some v => simp [mapOrFail, hfb, mapOrFail_none_of_mem f l a ha' hfa]

/-- C2 counterexample: a batch whose first record is perfectly mappable and
whose second record has a non-numeric volume field: instead of skipping the
bad record and returning the good one, the whole fetch call fails (the
`float` call raises and there is no per-record handler), for the manifold
mapping and the polymarket mapping alike. -/
theorem fetch_bad_record_fails_whole_call_cex :
    fetch_manifold [{}, { volume24Hours := some (JVal.str "lots") }] = none
    ∧ (convertManifold {}).isSome = true
    ∧ fetch_polymarket
        [{ slug := some (JVal.str "ok"), markets := some [pmM "a" 1] },
         { slug := some (JVal.str "bad"),
           markets := some [{ volume := some (JVal.str "many") }] }] = none :=
  ⟨by decide, by decide, by decide⟩

/-- C2 amended: a record with merely absent or null optional fields is
converted (with null defaults), and a batch of well-formed records is
converted in full, one market per record, with nothing skipped; but a
single record whose conversion raises (for example a non-numeric volume,
price or elasticity) makes the whole fetch call fail for both adapters --
the code has no per-record skip for malformed records. -/
theorem fetch_record_failure_aborts_batch :
    (∀ rs : List RawManifoldRec, (∀ r ∈ rs, manifoldWellFormed r = true) →
        ∃ ms, fetch_manifold rs = some ms ∧ ms.length = rs.length)
    ∧ (∀ (rs : List RawManifoldRec) (r : RawManifoldRec),
        r ∈ rs → convertManifold r = none → fetch_manifold rs = none)
    ∧ (∀ (es : List RawPMEvent) (e : RawPMEvent),
        e ∈ es → convertPMEvent e = none → fetch_polymarket es = none) := by
  refine ⟨?_, ?_, ?_⟩
  · intro rs h
    exact mapOrFail_isSome_length convertManifold rs
      (fun r hr => convertManifold_isSome_of_wf r (h r hr))
  · intro rs r hr hc
    exact mapOrFail_none_of_mem convertManifold rs r hr hc
  · intro es e he hc
    show (mapOrFail convertPMEvent es).map List.flatten = none
    rw [mapOrFail_none_of_mem convertPMEvent es e he hc]
    rfl

/-- Witness for the amended C2 theorem at concrete inputs. -/
theorem fetch_record_failure_aborts_batch_witness :
    (∃ ms, fetch_manifold [{}] = some ms ∧ ms.length = ([({} : RawManifoldRec)]).length)
    ∧ fetch_manifold [{ volume24Hours := some (JVal.str "oops") }] = none
    ∧ fetch_polymarket [{ id := some (JVal.num 7) }] = none :=
  ⟨fetch_record_failure_aborts_batch.1 [{}] (by decide),
   fetch_record_failure_aborts_batch.2.1 [{ volume24Hours := some (JVal.str "oops") }]
     { volume24Hours := some (JVal.str "oops") } (by simp) (by decide),
   fetch_record_failure_aborts_batch.2.2 [{ id := some (JVal.num 7) }]
     { id := some (JVal.num 7) } (by simp) (by decide)⟩

theorem bestGo_spec :
    ∀ (ms : List RawPMMarket) (acc res : Option RawPMMarket × ℚ),
      bestGo acc ms = some res →
      (res = acc ∧ ∀ m ∈ ms, ∃ v, pmVol m = some v ∧ v ≤ acc.2)
      ∨ (∃ l1 bm l2, ms = l1 ++ bm :: l2 ∧ res.1 = some bm ∧ pmVol bm = some res.2
          ∧ acc.2 < res.2
          ∧ (∀ m' ∈ l1, ∃ v, pmVol m' = some v ∧ v < res.2)
          ∧ (∀ m' ∈ l2, ∃ v, pmVol m' = some v ∧ v ≤ res.2))
  | [], acc, res, h => by
    left
    refine ⟨(Option.some.inj h).symm, ?_⟩
    intro m hm
    exact absurd hm (List.not_mem_nil m)
  | m :: rest, acc, res, h => by
    rw [bestGo] at h
    cases hv : pmVol m with
    | none => rw [hv] at h; simp at h
    | some v =>
      rw [hv] at h
      simp only [Option.bind_eq_bind, Option.some_bind'] at h
      by_cases hlt : acc.2 < v
      · rw [if_pos hlt] at h
        rcases bestGo_spec rest (some m, v) res h with
          ⟨hres, hall⟩ | ⟨l1, bm, l2, hms, h1, h2, h3, h4, h5⟩
        · right
          refine ⟨[], m, rest, rfl, by rw [hres], by rw [hres]; exact hv,
            by rw [hres]; exact hlt, ?_, ?_⟩
          · intro m' hm'
            exact absurd hm' (List.not_mem_nil m')
          · intro m' hm'
            obtain ⟨w, hw, hle⟩ := hall m' hm'
            exact ⟨w, hw, by rw [hres]; exact hle⟩
        · right
          refine ⟨m :: l1, bm, l2, by rw [hms, List.cons_append], h1, h2, lt_trans hlt h3, ?_, h5⟩
          intro m' hm'
          rcases List.mem_cons.mp hm' with rfl | hm''
          · exact ⟨v, hv, h3⟩
          · exact h4 m' hm''
      · rw [if_neg hlt] at h
        have hvle : v ≤ acc.2 := not_lt.mp hlt
        rcases bestGo_spec rest acc res h with
          ⟨hres, hall⟩ | ⟨l1, bm, l2, hms, h1, h2, h3, h4, h5⟩
        · left
          refine ⟨hres, ?_⟩
          intro m' hm'
          rcases List.mem_cons.mp hm' with rfl | hm''
          · exact ⟨v, hv, hvle⟩
          · exact hall m' hm''
        · right
          refine ⟨m :: l1, bm, l2, by rw [hms, List.cons_append], h1, h2, h3, ?_, h5⟩
          intro m' hm'
          rcases List.mem_cons.mp hm' with rfl | hm''
          · exact ⟨v, hv, lt_of_le_of_lt hvle h3⟩
          · exact h4 m' hm''


/-- C6: per Polymarket event, at most one market is selected: an event with
an empty markets list yields no Market and no error (`continue`), any
successful event conversion emits at most one Market, the selection loop
returns the first market attaining the strictly highest volume (every
earlier market parses strictly below it, every later one at most equal to
it), and the spec example (volumes 5, 40, 12) produces only the fields of
the volume-40 market. -/
theorem fetch_polymarket_selects_best_market :
    (∀ e : RawPMEvent, e.markets = some [] →
        (∃ s, jOr (jOr (e.slug.getD JVal.null) (e.id.getD JVal.null)) (JVal.str "")
          = JVal.str s) →
        convertPMEvent e = some [])
    ∧ (∀ (e : RawPMEvent) (r : List Market), convertPMEvent e = some r → r.length ≤ 1)
    ∧ (∀ (ms : List RawPMMarket) (bm : RawPMMarket) (bv : ℚ),
        bestGo (none, -1) ms = some (some bm, bv) →
        ∃ l1 l2, ms = l1 ++ bm :: l2 ∧ pmVol bm = some bv
          ∧ (∀ m' ∈ l1, ∃ v, pmVol m' = some v ∧ v < bv)
          ∧ (∀ m' ∈ l2, ∃ v, pmVol m' = some v ∧ v ≤ bv))
    ∧ convertPMEvent { slug := some (JVal.str "ev"),
                       markets := some [pmM "p5" 5, pmM "p40" 40, pmM "p12" 12] } =
      some [{ source := "polymarket", id := JVal.str "p40", question := JVal.str "",
              url := "https://polymarket.com/event/ev", outcome_type := "multi",
              probability := JVal.null, implied_odds := JVal.null,
              volume_24h := some 40, liquidity := none,
              created_at := none, close_time := none }] := by
  refine ⟨?_, ?_, ?_, by decide⟩
  · intro e hm hs
    obtain ⟨s, hs⟩ := hs
    unfold convertPMEvent
    rw [hs, hm]
    simp [bestGo]
  · intro e r h
    unfold convertPMEvent at h
    rcases hu : jOr (jOr (e.slug.getD JVal.null) (e.id.getD JVal.null)) (JVal.str "")
      with _ | b | q | s <;> rw [hu] at h
    · simp at h
    · simp at h
    · simp at h
    · simp only [Option.bind_eq_bind, Option.some_bind'] at h
      obtain ⟨best, hb, hrest⟩ := Option.bind_eq_some.mp h
      rcases hbest : best.1 with _ | bm <;> rw [hbest] at hrest
      · have hre : ([] : List Market) = r := Option.some.inj hrest
        rw [← hre]
        decide
      · have hrest' : Option.map (fun m => [m])
            (pmBuildMarket e ("https://polymarket.com/event/" ++ s) bm) = some r := hrest
        cases hbuild : pmBuildMarket e ("https://polymarket.com/event/" ++ s) bm with
        | none => rw [hbuild] at hrest'; simp at hrest'
        | some m =>
          rw [hbuild] at hrest'
          have hre : [m] = r := by simpa using hrest'
          rw [← hre]
          simp
  · intro ms bm bv h
    rcases bestGo_spec ms (none, -1) (some bm, bv) h with
      ⟨hres, _⟩ | ⟨l1, bm', l2, hms, h1, h2, _, h4, h5⟩
    · simp at hres
    · have hbm : bm' = bm := (Option.some.inj h1).symm
      subst hbm
      exact ⟨l1, l2, hms, h2, h4, h5⟩

/-- Witness for the C6 theorem at concrete inputs. -/
theorem fetch_polymarket_selects_best_market_witness :
    convertPMEvent { slug := some (JVal.str "ev"), markets := some [] } = some []
    ∧ ([] : List Market).length ≤ 1
    ∧ ∃ l1 l2, ([pmM "p5" 5, pmM "p40" 40, pmM "p12" 12] : List RawPMMarket)
        = l1 ++ (pmM "p40" 40) :: l2 ∧ pmVol (pmM "p40" 40) = some 40
        ∧ (∀ m' ∈ l1, ∃ v, pmVol m' = some v ∧ v < 40)
        ∧ (∀ m' ∈ l2, ∃ v, pmVol m' = some v ∧ v ≤ 40) :=
  ⟨fetch_polymarket_selects_best_market.1
      { slug := some (JVal.str "ev"), markets := some [] } rfl ⟨"ev", by decide⟩,
   fetch_polymarket_selects_best_market.2.1
      { slug := some (JVal.str "ev"), markets := some [] } [] (by decide),
   fetch_polymarket_selects_best_market.2.2.1
      [pmM "p5" 5, pmM "p40" 40, pmM "p12" 12] (pmM "p40" 40) 40 (by decide)⟩

/-- C9 counterexample: an environmental failure that interrupts the write
after 3 characters leaves the destination holding `abc`: a nonempty proper
prefix of the intended serialized text, which is neither the old content
nor the new -- a truncated partial file, because `write_text` truncates and
writes in place with no temporary file and no rename. -/
theorem emit_write_failure_truncated_cex :
    writeTextResult "abcdef" (some 3) (some "old-complete-snapshot") = some "abc"
    ∧ ("abc" : String) ≠ "abcdef"
    ∧ ("abc" : String) ≠ "old-complete-snapshot"
    ∧ ("abc" : String) ≠ "" :=
  ⟨by decide, by decide, by decide, by decide⟩

/-- C9 amended: the emitter is all-or-nothing only against serialization
failures: `json.dumps` runs before the destination is opened (first element
of the effect trace), and an uninterrupted write stores the full text; but
the write is not atomic: an interrupted write leaves a proper prefix of
the intended text of exactly the delivered length, different from the
intended text (and the prior content is destroyed either way). -/
theorem emit_serialize_first_write_not_atomic (p t : String) (prior : Option String) :
    emitFileEffects p t =
      [EmitEffect.serialize, EmitEffect.mkdirParents p, EmitEffect.openTrunc p,
       EmitEffect.writeAll p t]
    ∧ writeTextResult t none prior = some t
    ∧ (∀ k, k < t.length → ∃ c, writeTextResult t (some k) prior = some c
        ∧ c.length = k ∧ c ≠ t) := by
  refine ⟨rfl, rfl, ?_⟩
  intro k hk
  have hk' : k < t.data.length := hk
  refine ⟨⟨t.data.take k⟩, rfl, ?_, ?_⟩
  · show (t.data.take k).length = k
    rw [List.length_take]
    exact min_eq_left (le_of_lt hk')
  · intro hc
    have hlen : (t.data.take k).length = t.data.length := congrArg String.length hc
    rw [List.length_take] at hlen
    omega

/-- Witness for the amended C9 theorem at a concrete input. -/
theorem emit_serialize_first_write_not_atomic_witness :
    emitFileEffects "data/predictions.json" "abcdef" =
      [EmitEffect.serialize, EmitEffect.mkdirParents "data/predictions.json",
       EmitEffect.openTrunc "data/predictions.json",
       EmitEffect.writeAll "data/predictions.json" "abcdef"]
    ∧ writeTextResult "abcdef" none (some "old") = some "abcdef"
    ∧ ∃ c, writeTextResult "abcdef" (some 2) (some "old") = some c
        ∧ c.length = 2 ∧ c ≠ "abcdef" :=
  ⟨(emit_serialize_first_write_not_atomic "data/predictions.json" "abcdef" (some "old")).1,
   (emit_serialize_first_write_not_atomic "data/predictions.json" "abcdef" (some "old")).2.1,
   (emit_serialize_first_write_not_atomic "data/predictions.json" "abcdef" (some "old")).2.2
     2 (by decide)⟩
